import Mathlib

/-!
Shallow embedding of the streaming subscription lifecycle of `@c7/react`
(`src/src/index.ts`: the `createLedgerContext` hooks `useStreamQuery`,
`useMultiStreamQuery`, and `useDamlLedgerContext`).

The materialized view kept by `useStreamQuery` is a JavaScript `Map`
(insertion-ordered, unique keys).  It is embedded as a `List (K × V)`:
`mapSet` replaces the value in place when the key is present and appends
at the end otherwise (JS `Map.prototype.set`), `mapDelete` removes the
key's entry (JS `Map.prototype.delete`), `mapLookup` finds the entry.

The hook's React state and refs are embedded as a record `HookState`;
each `on(...)` handler, the `setupStream` routine (with its catch branch
scheduling a 5000 ms reconnect timer), the effect cleanup, and the
`reload` callback become functions on that record, translated line by
line from the source.  Stream handles and timers are identified by the
numbers the caller supplies at creation; the collaborator (`@c7/ledger`)
is a black box, so the outcome of `ledger.streamQuery` is an input
(`SetupOutcome`).
-/

set_option autoImplicit false

namespace C7React

/-- Lookup in the ordered key-value list: first entry with the key. -/
def mapLookup {K V : Type} [DecidableEq K] : List (K × V) → K → Option V
  | [], _ => none
  | (k', v) :: rest, k => if k' = k then some v else mapLookup rest k

/-- `Map.prototype.has`: does an entry with this key exist? -/
def mapHasKey {K V : Type} [DecidableEq K] (m : List (K × V)) (k : K) : Bool :=
  m.any (fun p => decide (p.1 = k))

/-- `Map.prototype.set`: replace the value in place when the key is
present (keeping the key's position), append at the end otherwise. -/
def mapSet {K V : Type} [DecidableEq K] : List (K × V) → K → V → List (K × V)
  | [], k, v => [(k, v)]
  | (k', v') :: rest, k, v =>
    if k' = k then (k, v) :: rest else (k', v') :: mapSet rest k v

/-- `Map.prototype.delete`: drop the entry with this key (the view's
keys are unique, so dropping every occurrence equals dropping the one). -/
def mapDelete {K V : Type} [DecidableEq K] (m : List (K × V)) (k : K) : List (K × V) :=
  m.filter (fun p => decide (¬ p.1 = k))

/-- The insertion-ordered key sequence of the view. -/
def mapKeys {K V : Type} (m : List (K × V)) : List K :=
  m.map Prod.fst

/-- The error type delivered by the collaborator's streams; the hooks
read only its `cause` field (`src/src/index.ts` line 496). -/
structure CantonError where
  cause : String
  deriving DecidableEq

/-- The hooks' `error` state has type `CantonError | string | null`;
`null` is `none` at the `Option` layer. -/
inductive ErrVal where
  | canton (e : CantonError)
  | str (s : String)
  deriving DecidableEq

/-- A JavaScript thrown value: either an `Error` instance (with `name`
and `message`) or anything else. -/
inductive Thrown where
  | errObj (name message : String)
  | nonError
  deriving DecidableEq

/-- `err instanceof Error ? err.name + ": " + err.message : fallback`. -/
def thrownMessage (fallback : String) : Thrown → String
  | .errObj n m => n ++ ": " ++ m
  | .nonError => fallback

/-- Fallback error string of `useStreamQuery`'s catch branch. -/
def singleSetupFallback : String := "Failed to setup stream"

/-- Fallback error string of `useMultiStreamQuery`'s catch branch. -/
def multiSetupFallback : String := "Failed to setup multi-stream"

/-- The fixed reconnect backoff passed to `setTimeout` (milliseconds). -/
def backoffMs : Nat := 5000

/-- Events a stream handle can deliver to the handlers registered by
`useStreamQuery`: `create`, `archive`, `error`, `state`.  The `state`
payload is the `StreamState` string the code compares with `"live"`. -/
inductive StreamEvent (K V : Type) where
  | create (contractId : K) (event : V)
  | archive (contractId : K)
  | error (err : CantonError)
  | state (st : String)
  deriving DecidableEq

/-- Result of the awaited `ledger.streamQuery` / `ledger.createMultiStream`
call: a fresh handle, or a thrown value caught by the catch branch. -/
inductive SetupOutcome where
  | success
  | failure (thrown : Thrown)
  deriving DecidableEq

/-- The React state and refs of one `useStreamQuery` call.
`contractsMap` is the `useState` map, `streamOpen` the handle held in
`streamRef` (identified by its creation number), `reconnectTimeout` the
pending timer with its delay in ms. -/
structure HookState (K V : Type) where
  contractsMap : List (K × V)
  loading : Bool
  connected : Bool
  error : Option ErrVal
  streamOpen : Option Nat
  isCleanedUp : Bool
  reconnectTimeout : Option (Nat × Nat)
  deriving DecidableEq

/-- State at mount: empty map, `loading` true, `connected` false, no
error, no handle, no timer. -/
def initState {K V : Type} : HookState K V :=
  { contractsMap := [], loading := true, connected := false, error := none,
    streamOpen := none, isCleanedUp := false, reconnectTimeout := none }

/-- The `on("create", ...)` handler: `setContractsMap(prev => new
Map(prev).set(event.contractId, event))`. -/
def onCreate {K V : Type} [DecidableEq K] (s : HookState K V) (k : K) (v : V) : HookState K V :=
  { s with contractsMap := mapSet s.contractsMap k v }

/-- The `on("archive", ...)` handler: copy the map and delete the key. -/
def onArchive {K V : Type} [DecidableEq K] (s : HookState K V) (k : K) : HookState K V :=
  { s with contractsMap := mapDelete s.contractsMap k }

/-- The `on("error", ...)` handler: `setError(err); setConnected(false)`.
It touches nothing else: no timer, no map reset, no handle change. -/
def onStreamError {K V : Type} (s : HookState K V) (err : CantonError) : HookState K V :=
  { s with error := some (.canton err), connected := false }

/-- The `on("state", ...)` handler: `setConnected(state === "live");
if (state === "live") setLoading(false)`. -/
def onStreamState {K V : Type} (s : HookState K V) (st : String) : HookState K V :=
  { s with connected := decide (st = "live"),
           loading := if st = "live" then false else s.loading }

/-- Delivery of one event through a handler registered on the handle
`source`.  The handler closures in the source capture only the state
setters — they never consult which handle they were registered on and
perform no generation check — so `source` is ignored, exactly as in the
code. -/
def deliverEvent {K V : Type} [DecidableEq K] (s : HookState K V) (source : Nat)
    (ev : StreamEvent K V) : HookState K V :=
  match source, ev with
  | _, .create k v => onCreate s k v
  | _, .archive k => onArchive s k
  | _, .error e => onStreamError s e
  | _, .state st => onStreamState s st

/-- First line of the stream-setup effect body: `isCleanedUpRef.current
= false` (runs before `setupStream` on every (re)run of the effect). -/
def effectBegin {K V : Type} (s : HookState K V) : HookState K V :=
  { s with isCleanedUp := false }

/-- The part of `setupStream` before the `await`: the early return when
already cleaned up, then `setLoading(true); setError(null)`.  The Bool
says whether the body proceeded. -/
def setupBegin {K V : Type} (s : HookState K V) : HookState K V × Bool :=
  if s.isCleanedUp then (s, false)
  else ({ s with loading := true, error := none }, true)

/-- The part of `setupStream` after the `await` resolves.  On success
the fresh handle is stored in `streamRef` and its handlers registered;
on a thrown value the catch branch runs: `setError(message);
setConnected(false); setLoading(false)` and, unless cleaned up in the
meantime, a reconnect timer at `backoffMs` is scheduled. -/
def setupResolve {K V : Type} (s : HookState K V) (newStreamId timerId : Nat) :
    SetupOutcome → HookState K V
  | .success => { s with streamOpen := some newStreamId }
  | .failure t =>
    let s1 := { s with loading := false, connected := false,
                       error := some (.str (thrownMessage singleSetupFallback t)) }
    if s1.isCleanedUp then s1
    else { s1 with reconnectTimeout := some (timerId, backoffMs) }

/-- One sequential run of `setupStream` (no interleaved cleanup during
the `await`): the pre-`await` part followed by resolution. -/
def setupStream {K V : Type} (s : HookState K V) (newStreamId timerId : Nat)
    (outcome : SetupOutcome) : HookState K V :=
  let p := setupBegin s
  if p.2 then setupResolve p.1 newStreamId timerId outcome else p.1

/-- The effect cleanup (the hook's stop): `isCleanedUpRef.current =
true`; `clearTimeout` and null the timer ref if set; `close()` and null
the stream ref if set; `setConnected(false)`.  Both `if` guards make
the absent cases no-ops, so the net state is the same whether or not a
timer or handle existed. -/
def cleanup {K V : Type} (s : HookState K V) : HookState K V :=
  { s with isCleanedUp := true, reconnectTimeout := none,
           streamOpen := none, connected := false }

/-- The `reload` callback returned by `useStreamQuery`:
`setLoading(true); setError(null); setContractsMap(new Map())`.
Nothing else happens: the refs are not touched. -/
def reload {K V : Type} (s : HookState K V) : HookState K V :=
  { s with loading := true, error := none, contractsMap := [] }

/-- The React state and refs of one `useMultiStreamQuery` call.  It
keeps no contracts map of its own; `multiStream` is the `useState`
holding the exposed stream instance, `streamOpen` the handle in
`streamRef`. -/
structure MHookState where
  multiStream : Option Nat
  loading : Bool
  connected : Bool
  error : Option ErrVal
  streamOpen : Option Nat
  isCleanedUp : Bool
  reconnectTimeout : Option (Nat × Nat)
  deriving DecidableEq

/-- `useMultiStreamQuery` state at mount. -/
def mInitState : MHookState :=
  { multiStream := none, loading := true, connected := false, error := none,
    streamOpen := none, isCleanedUp := false, reconnectTimeout := none }

/-- The multi-stream `onError` handler: `setError(err.cause);
setConnected(false)`. -/
def mOnStreamError (s : MHookState) (err : CantonError) : MHookState :=
  { s with error := some (.str err.cause), connected := false }

/-- The multi-stream `onState` handler, identical to the single one. -/
def mOnStreamState (s : MHookState) (st : String) : MHookState :=
  { s with connected := decide (st = "live"),
           loading := if st = "live" then false else s.loading }

/-- Post-`await` part of the multi-stream `setupStream`: on success the
handle is stored in the ref and published via `setMultiStream`; the
catch branch mirrors the single hook with its own fallback string. -/
def mSetupResolve (s : MHookState) (newStreamId timerId : Nat) :
    SetupOutcome → MHookState
  | .success => { s with streamOpen := some newStreamId, multiStream := some newStreamId }
  | .failure t =>
    let s1 := { s with loading := false, connected := false,
                       error := some (.str (thrownMessage multiSetupFallback t)) }
    if s1.isCleanedUp then s1
    else { s1 with reconnectTimeout := some (timerId, backoffMs) }

/-- One sequential run of the multi-stream `setupStream`. -/
def mSetupStream (s : MHookState) (newStreamId timerId : Nat)
    (outcome : SetupOutcome) : MHookState :=
  if s.isCleanedUp then s
  else mSetupResolve { s with loading := true, error := none } newStreamId timerId outcome

/-- The multi-stream effect cleanup: as the single one, plus
`setMultiStream(null)`. -/
def mCleanup (s : MHookState) : MHookState :=
  { s with isCleanedUp := true, reconnectTimeout := none,
           streamOpen := none, connected := false, multiStream := none }

/-- The `reload` callback returned by `useMultiStreamQuery`:
`setLoading(true); setError(null); setMultiStream(null)`; the stream
ref is not touched. -/
def mReload (s : MHookState) : MHookState :=
  { s with loading := true, error := none, multiStream := none }

/-- The context value provided by `DamlLedger` (the `ledger` instance
is opaque; it is identified by a number). -/
structure DamlLedgerConfig where
  ledger : Nat
  reloadTrigger : Nat
  deriving DecidableEq

/-- `useDamlLedgerContext`: reads the React context; `null` (outside
the provider) throws synchronously, otherwise the config is returned. -/
def useDamlLedgerContext (ctx : Option DamlLedgerConfig) : Except String DamlLedgerConfig :=
  match ctx with
  | none => Except.error "useDamlLedgerContext must be used within a DamlLedger provider"
  | some c => Except.ok c

/-- Abstract add/remove events for reasoning about the view fold alone
(the `create`/`archive` handlers applied in arrival order). -/
inductive ViewEvent (K V : Type) where
  | add (k : K) (v : V)
  | remove (k : K)
  deriving DecidableEq

/-- Apply one add/remove event to the view, as the handlers do. -/
def applyEvent {K V : Type} [DecidableEq K] (m : List (K × V)) : ViewEvent K V → List (K × V)
  | .add k v => mapSet m k v
  | .remove k => mapDelete m k

/-- Fold a whole event sequence into an initially empty view. -/
def foldView {K V : Type} [DecidableEq K] (evs : List (ViewEvent K V)) : List (K × V) :=
  evs.foldl applyEvent []

/-- Per-key bookkeeping step: the net outcome for key `k` (present with
which value) after one more event. -/
def netStep {K V : Type} [DecidableEq K] (k : K) (o : Option V) : ViewEvent K V → Option V
  | .add k' v => if k' = k then some v else o
  | .remove k' => if k' = k then none else o

/-- Per-key presence step: is `k` added and not subsequently removed? -/
def presStep {K V : Type} [DecidableEq K] (k : K) (b : Bool) : ViewEvent K V → Bool
  | .add k' _ => if k' = k then true else b
  | .remove k' => if k' = k then false else b

/-- Per-key last-addition step: the value of the last addition for `k`,
ignoring removals. -/
def lastStep {K V : Type} [DecidableEq K] (k : K) (o : Option V) : ViewEvent K V → Option V
  | .add k' v => if k' = k then some v else o
  | .remove _ => o

/-- `k` was added and not subsequently removed in `evs`. -/
def presentAfter {K V : Type} [DecidableEq K] (evs : List (ViewEvent K V)) (k : K) : Bool :=
  evs.foldl (presStep k) false

/-- The value of the last addition written for `k` in `evs`. -/
def lastAddValue {K V : Type} [DecidableEq K] (evs : List (ViewEvent K V)) (k : K) : Option V :=
  evs.foldl (lastStep k) none

/-- Keys in order of first addition arrival, restricted to the keys
still present — the order the claim about the view's key order asserts. -/
def firstOccurrences {K : Type} [DecidableEq K] : List K → List K
  | [] => []
  | k :: rest => k :: (firstOccurrences rest).filter (fun x => decide (¬ x = k))

/-- Modelled from the claim's wording: the identities listed in the
order their additions first arrived, keeping only those still present. -/
def firstAddOrder {K V : Type} [DecidableEq K] (evs : List (ViewEvent K V)) : List K :=
  (firstOccurrences (evs.filterMap (fun e => match e with
    | .add k _ => some k
    | .remove _ => none))).filter (fun k => presentAfter evs k)

/-! ### Concrete scenario states (contract ids are strings, payloads
are numbers; handle and timer numbers count creations) -/

/-- A live single-stream subscription: the effect opened handle 0, the
handle delivered contract `"a"` and then reported `"live"`. -/
def liveState : HookState String Nat :=
  onStreamState (onCreate (setupStream initState 0 0 SetupOutcome.success) "a" 1) "live"

/-- The state after a forced restart of `liveState`: the effect cleanup
closed handle 0, the effect ran again and opened handle 1 (handle 0's
handlers are still registered on the superseded handle). -/
def restartedState : HookState String Nat :=
  setupStream (effectBegin (cleanup liveState)) 1 0 SetupOutcome.success

/-- A freshly started subscription holding handle 0. -/
def runningState : HookState String Nat :=
  setupStream initState 0 5 SetupOutcome.success

/-- An event trace with a duplicate addition, a removal of an absent
identity, and a removal of a present one. -/
def lwwTrace : List (ViewEvent String Nat) :=
  [ViewEvent.add "a" 1, ViewEvent.add "a" 2, ViewEvent.add "b" 3,
   ViewEvent.remove "c", ViewEvent.remove "a"]

/-- An event trace that removes a key and later re-adds it. -/
def reAddTrace : List (ViewEvent String Nat) :=
  [ViewEvent.add "a" 1, ViewEvent.add "b" 2, ViewEvent.remove "a", ViewEvent.add "a" 3]

/-! ### Lemmas about the JS-Map operations -/

/-- Lookup after `set`: the written key reads back the written value,
every other key is unaffected. -/
theorem mapLookup_mapSet {K V : Type} [DecidableEq K] (m : List (K × V)) (k q : K) (v : V) :
    mapLookup (mapSet m k v) q = if k = q then some v else mapLookup m q := by
  induction m with
  | nil =>
    by_cases hq : k = q <;> simp [mapSet, mapLookup, hq]
  | cons p rest ih =>
    obtain ⟨k', v'⟩ := p
    by_cases h : k' = k
    · subst h
      by_cases hq : k' = q <;> simp [mapSet, mapLookup, hq]
    · by_cases hq : k' = q
      · subst hq
        have hkq : ¬ k = k' := fun e => h e.symm
        simp [mapSet, mapLookup, h, hkq]
      · simp [mapSet, mapLookup, h, hq, ih]

/-- Lookup after `delete`: the deleted key reads back nothing, every
other key is unaffected. -/
theorem mapLookup_mapDelete {K V : Type} [DecidableEq K] (m : List (K × V)) (k q : K) :
    mapLookup (mapDelete m k) q = if k = q then none else mapLookup m q := by
  induction m with
  | nil => simp [mapDelete, mapLookup]
  | cons p rest ih =>
    obtain ⟨k', v'⟩ := p
    by_cases h : k' = k
    · subst h
      by_cases hq : k' = q <;>
        simp [mapDelete, List.filter_cons, mapLookup, hq] at ih ⊢ <;> simp [ih]
    · by_cases hq : k' = q
      · subst hq
        have hkq : ¬ k = k' := fun e => h e.symm
        simp [mapDelete, List.filter_cons, mapLookup, h, hkq]
      · simp [mapDelete, List.filter_cons, mapLookup, h, hq] at ih ⊢
        exact ih

/-- Deleting an absent key is the identity on the view. -/
theorem mapDelete_absent {K V : Type} [DecidableEq K] (m : List (K × V)) (k : K)
    (h : mapHasKey m k = false) : mapDelete m k = m := by
  rw [mapDelete, List.filter_eq_self]
  intro p hp
  have hnk : ¬ p.1 = k := by
    intro e
    have hmem : mapHasKey m k = true := by
      rw [mapHasKey]
      simp only [List.any_eq_true, decide_eq_true_eq]
      exact ⟨p, hp, e⟩
    rw [h] at hmem
    exact Bool.false_ne_true hmem
  simp [hnk]

/-- A key is found by `has` exactly when it occurs in the key sequence. -/
theorem mapHasKey_iff_mem {K V : Type} [DecidableEq K] (m : List (K × V)) (k : K) :
    mapHasKey m k = true ↔ k ∈ mapKeys m := by
  simp only [mapHasKey, mapKeys, List.any_eq_true, decide_eq_true_eq, List.mem_map]

/-- Setting a key that is already present leaves the whole key sequence
unchanged (the entry is replaced in place). -/
theorem mapKeys_mapSet_present {K V : Type} [DecidableEq K] (m : List (K × V)) (k : K) (v : V)
    (h : mapHasKey m k = true) : mapKeys (mapSet m k v) = mapKeys m := by
  induction m with
  | nil => simp [mapHasKey] at h
  | cons p rest ih =>
    obtain ⟨k', v'⟩ := p
    by_cases hk : k' = k
    · subst hk; simp [mapSet, mapKeys]
    · have hr : mapHasKey rest k = true := by
        simpa [mapHasKey, hk] using h
      simp [mapSet, hk, mapKeys]
      simpa [mapKeys] using ih hr

/-- Setting an absent key appends it at the end of the key sequence. -/
theorem mapKeys_mapSet_absent {K V : Type} [DecidableEq K] (m : List (K × V)) (k : K) (v : V)
    (h : mapHasKey m k = false) : mapKeys (mapSet m k v) = mapKeys m ++ [k] := by
  induction m with
  | nil => simp [mapSet, mapKeys]
  | cons p rest ih =>
    obtain ⟨k', v'⟩ := p
    have hk : ¬ k' = k := by
      intro e
      simp [mapHasKey, e] at h
    have hr : mapHasKey rest k = false := by
      simpa [mapHasKey, hk] using h
    simp [mapSet, hk, mapKeys]
    simpa [mapKeys] using ih hr

/-- Deleting a key filters it out of the key sequence, preserving the
relative order of all remaining keys. -/
theorem mapKeys_mapDelete {K V : Type} [DecidableEq K] (m : List (K × V)) (k : K) :
    mapKeys (mapDelete m k) = (mapKeys m).filter (fun x => decide (¬ x = k)) := by
  induction m with
  | nil => simp [mapDelete, mapKeys]
  | cons p rest ih =>
    obtain ⟨k', v'⟩ := p
    by_cases hk : k' = k <;>
      simp [mapDelete, List.filter_cons, mapKeys, hk] at ih ⊢ <;> exact ih

/-- `set` can only introduce the written key into the key sequence. -/
theorem mem_mapKeys_mapSet {K V : Type} [DecidableEq K] (m : List (K × V)) (k x : K) (v : V) :
    x ∈ mapKeys (mapSet m k v) ↔ x ∈ mapKeys m ∨ x = k := by
  by_cases h : mapHasKey m k = true
  · rw [mapKeys_mapSet_present m k v h]
    constructor
    · exact Or.inl
    · rintro (hx | hx)
      · exact hx
      · subst hx; exact (mapHasKey_iff_mem m x).mp h
  · rw [mapKeys_mapSet_absent m k v (by simpa using h)]
    simp

/-- `set` preserves uniqueness of the keys. -/
theorem nodup_mapKeys_mapSet {K V : Type} [DecidableEq K] (m : List (K × V)) (k : K) (v : V)
    (h : (mapKeys m).Nodup) : (mapKeys (mapSet m k v)).Nodup := by
  by_cases hk : mapHasKey m k = true
  · rw [mapKeys_mapSet_present m k v hk]; exact h
  · rw [mapKeys_mapSet_absent m k v (by simpa using hk)]
    have hnm : k ∉ mapKeys m := fun hmem => hk ((mapHasKey_iff_mem m k).mpr hmem)
    simp [List.nodup_append, h, hnm]

/-- `delete` preserves uniqueness of the keys. -/
theorem nodup_mapKeys_mapDelete {K V : Type} [DecidableEq K] (m : List (K × V)) (k : K)
    (h : (mapKeys m).Nodup) : (mapKeys (mapDelete m k)).Nodup := by
  rw [mapKeys_mapDelete]
  exact h.filter _

/-! ### Lemmas about folding event sequences -/

/-- One event's effect on a single key's lookup. -/
theorem mapLookup_applyEvent {K V : Type} [DecidableEq K] (m : List (K × V)) (k : K)
    (e : ViewEvent K V) : mapLookup (applyEvent m e) k = netStep k (mapLookup m k) e := by
  cases e with
  | add k' v => simp [applyEvent, netStep, mapLookup_mapSet]
  | remove k' =>
    by_cases hk : k' = k <;> simp [applyEvent, netStep, mapLookup_mapDelete, hk]

/-- Folding events commutes with per-key lookup bookkeeping. -/
theorem mapLookup_foldl_applyEvent {K V : Type} [DecidableEq K]
    (evs : List (ViewEvent K V)) :
    ∀ (m : List (K × V)) (k : K),
      mapLookup (List.foldl applyEvent m evs) k =
        List.foldl (netStep k) (mapLookup m k) evs := by
  induction evs with
  | nil => intro m k; rfl
  | cons e evs ih =>
    intro m k
    rw [List.foldl_cons, List.foldl_cons, ih, mapLookup_applyEvent]

/-- The per-key net outcome, presence, and last-added value stay in
step: the net outcome is `some` exactly when the key is present, and a
present key's net outcome is its last addition. -/
theorem net_pres_last {K V : Type} [DecidableEq K] (k : K) (evs : List (ViewEvent K V)) :
    ∀ (o l : Option V) (b : Bool), o.isSome = b → (b = true → o = l) →
      (List.foldl (netStep k) o evs).isSome = List.foldl (presStep k) b evs ∧
      (List.foldl (presStep k) b evs = true →
        List.foldl (netStep k) o evs = List.foldl (lastStep k) l evs) := by
  induction evs with
  | nil => intro o l b h1 h2; exact ⟨h1, h2⟩
  | cons e evs ih =>
    intro o l b h1 h2
    rw [List.foldl_cons, List.foldl_cons, List.foldl_cons]
    cases e with
    | add k' v =>
      by_cases hk : k' = k
      · simp only [netStep, presStep, lastStep, if_pos hk]
        exact ih (some v) (some v) true rfl (fun _ => rfl)
      · simp only [netStep, presStep, lastStep, if_neg hk]
        exact ih o l b h1 h2
    | remove k' =>
      by_cases hk : k' = k
      · simp only [netStep, presStep, lastStep, if_pos hk]
        exact ih none l false rfl (fun h => by simp at h)
      · simp only [netStep, presStep, lastStep, if_neg hk]
        exact ih o l b h1 h2

/-- One event preserves key uniqueness. -/
theorem nodup_mapKeys_applyEvent {K V : Type} [DecidableEq K] (m : List (K × V))
    (e : ViewEvent K V) (h : (mapKeys m).Nodup) : (mapKeys (applyEvent m e)).Nodup := by
  cases e with
  | add k v => exact nodup_mapKeys_mapSet m k v h
  | remove k => exact nodup_mapKeys_mapDelete m k h

/-- Folding any event sequence preserves key uniqueness. -/
theorem nodup_mapKeys_foldl {K V : Type} [DecidableEq K] (evs : List (ViewEvent K V)) :
    ∀ m : List (K × V), (mapKeys m).Nodup →
      (mapKeys (List.foldl applyEvent m evs)).Nodup := by
  induction evs with
  | nil => intro m h; exact h
  | cons e evs ih =>
    intro m h
    rw [List.foldl_cons]
    exact ih _ (nodup_mapKeys_applyEvent m e h)

/-! ### Claim theorems -/

/-- C1, counterexample: in the live state with contract `"a"` in view,
a handle-reported stream error leaves the reconnect timer unset (no
reconnect is triggered) and leaves the view untouched (not reset to
empty), contrary to the claim that a post-live stream failure triggers
a reconnect with the view reset. -/
theorem stream_failure_no_reconnect_cex :
    liveState.connected = true ∧
    (onStreamError liveState { cause := "boom" }).reconnectTimeout = none ∧
    (onStreamError liveState { cause := "boom" }).contractsMap = [("a", 1)] ∧
    ¬ (onStreamError liveState { cause := "boom" }).contractsMap = [] := by
  exact ⟨by decide, rfl, by decide, by decide⟩

/-- C1, amended: a handle-reported stream error is never thrown; it is
surfaced only through the published `error` field (together with
`connected = false`), while the view, the loading flag, the handle and
the reconnect timer are all left unchanged — in both hooks. -/
theorem stream_failure_surfaced_only {K V : Type} (s : HookState K V) (ms : MHookState)
    (e : CantonError) :
    (onStreamError s e).error = some (ErrVal.canton e) ∧
    (onStreamError s e).connected = false ∧
    (onStreamError s e).contractsMap = s.contractsMap ∧
    (onStreamError s e).loading = s.loading ∧
    (onStreamError s e).reconnectTimeout = s.reconnectTimeout ∧
    (onStreamError s e).streamOpen = s.streamOpen ∧
    (mOnStreamError ms e).error = some (ErrVal.str e.cause) ∧
    (mOnStreamError ms e).connected = false ∧
    (mOnStreamError ms e).reconnectTimeout = ms.reconnectTimeout ∧
    (mOnStreamError ms e).streamOpen = ms.streamOpen :=
  ⟨rfl, rfl, rfl, rfl, rfl, rfl, rfl, rfl, rfl, rfl⟩

/-- C2, counterexample: after the forced restart the current handle is
1, yet delivering an in-flight archive event through superseded handle
0's still-registered handler mutates the current view — no generation
tag is checked at apply time. -/
theorem stale_event_mutates_view_cex :
    restartedState.streamOpen = some 1 ∧
    ¬ (deliverEvent restartedState 0 (StreamEvent.archive "a")).contractsMap =
        restartedState.contractsMap := by
  exact ⟨rfl, by decide⟩

/-- C2, amended: stopping a controller synchronously closes its handle
and marks the state cleaned up, but the handlers perform no generation
check at apply time: event application is independent of which handle
delivered the event, and a create event is folded into the view even
from a superseded source — staleness protection rests entirely on the
closed handle delivering nothing. -/
theorem no_generation_guard_at_apply {K V : Type} [DecidableEq K] (s : HookState K V)
    (a b : Nat) (ev : StreamEvent K V) (k : K) (v : V) :
    deliverEvent s a ev = deliverEvent s b ev ∧
    (deliverEvent s a (StreamEvent.create k v)).contractsMap = mapSet s.contractsMap k v ∧
    (cleanup s).streamOpen = none ∧
    (cleanup s).isCleanedUp = true := by
  refine ⟨?_, rfl, rfl, rfl⟩
  cases ev <;> rfl

/-- C3: folding any finite sequence of addition and removal events into
an initially empty view yields exactly the identities added and not
subsequently removed; a present identity's value is the last addition
written for it (last write wins); and removal of an absent identity is
a no-op on the view. -/
theorem view_fold_last_write_wins {K V : Type} [DecidableEq K]
    (evs : List (ViewEvent K V)) (k : K) :
    (mapLookup (foldView evs) k).isSome = presentAfter evs k ∧
    (presentAfter evs k = true → mapLookup (foldView evs) k = lastAddValue evs k) ∧
    (∀ m : List (K × V), mapHasKey m k = false → applyEvent m (ViewEvent.remove k) = m) := by
  have hmain := net_pres_last k evs none none false rfl (fun _ => rfl)
  have hfold : mapLookup (foldView evs) k = List.foldl (netStep k) none evs := by
    have h := mapLookup_foldl_applyEvent evs [] k
    simpa [foldView, mapLookup] using h
  refine ⟨?_, ?_, ?_⟩
  · rw [hfold]; exact hmain.1
  · intro hp; rw [hfold]; exact hmain.2 hp
  · intro m hm
    simpa [applyEvent] using mapDelete_absent m k hm

/-- C3, witness: on the concrete trace, `"b"` is present and reads back
its last written value, and removing an absent `"q"` changes nothing. -/
theorem view_fold_last_write_wins_witness :
    mapLookup (foldView lwwTrace) "b" = lastAddValue lwwTrace "b" ∧
    applyEvent [("x", (5 : Nat))] (ViewEvent.remove "q") = [("x", (5 : Nat))] :=
  ⟨(view_fold_last_write_wins lwwTrace "b").2.1 (by decide),
   (view_fold_last_write_wins lwwTrace "q").2.2 [("x", 5)] (by decide)⟩

/-- C4, counterexample: on a running subscription holding handle 0, the
exposed `reload` keeps handle 0 in place, while a stop-then-start cycle
would hold a brand-new handle — `reload` is not equivalent to `stop()`
followed by `start()`. -/
theorem reload_not_restart_cex :
    (reload runningState).streamOpen = some 0 ∧
    (setupStream (effectBegin (cleanup runningState)) 1 5 SetupOutcome.success).streamOpen =
      some 1 ∧
    ¬ reload runningState =
        setupStream (effectBegin (cleanup runningState)) 1 5 SetupOutcome.success := by
  exact ⟨rfl, rfl, by decide⟩

/-- C4, amended: the exposed `reload` produces a freshly empty view,
sets the loading flag true and clears the error, but does not stop,
close or replace the handle: the stream and timer refs and the
connection flag are untouched (the multi hook additionally nulls its
published stream instance, again without touching the handle). -/
theorem reload_resets_state_only {K V : Type} (s : HookState K V) (ms : MHookState) :
    (reload s).contractsMap = [] ∧
    (reload s).loading = true ∧
    (reload s).error = none ∧
    (reload s).streamOpen = s.streamOpen ∧
    (reload s).connected = s.connected ∧
    (reload s).reconnectTimeout = s.reconnectTimeout ∧
    (mReload ms).loading = true ∧
    (mReload ms).error = none ∧
    (mReload ms).multiStream = none ∧
    (mReload ms).streamOpen = ms.streamOpen :=
  ⟨rfl, rfl, rfl, rfl, rfl, rfl, rfl, rfl, rfl, rfl⟩

/-- C5: a setup failure on a controller that has not been cleaned up
schedules exactly one reconnect timer with the fixed 5000 ms backoff;
the scheduled retry creates a brand-new handle on success; when the
controller is already cleaned up the whole routine is a no-op (no
reconnect is scheduled); and the cleanup cancels a pending timer. -/
theorem setup_failure_reconnect {K V : Type} (s : HookState K V) (t : Thrown)
    (nid tid : Nat) :
    (s.isCleanedUp = false →
      (setupStream s nid tid (SetupOutcome.failure t)).reconnectTimeout =
        some (tid, backoffMs)) ∧
    backoffMs = 5000 ∧
    (s.isCleanedUp = false →
      (setupStream s nid tid SetupOutcome.success).streamOpen = some nid) ∧
    (s.isCleanedUp = true → setupStream s nid tid (SetupOutcome.failure t) = s) ∧
    (cleanup s).reconnectTimeout = none := by
  refine ⟨?_, rfl, ?_, ?_, rfl⟩
  · intro h; simp [setupStream, setupBegin, setupResolve, h]
  · intro h; simp [setupStream, setupBegin, setupResolve, h]
  · intro h; simp [setupStream, setupBegin, h]

/-- C5, witness: at mount, a failed setup schedules the 5000 ms timer
and a successful retry stores handle 7; on a cleaned-up state the
routine changes nothing. -/
theorem setup_failure_reconnect_witness :
    (setupStream (initState : HookState String Nat) 7 3
        (SetupOutcome.failure Thrown.nonError)).reconnectTimeout = some (3, backoffMs) ∧
    (setupStream (initState : HookState String Nat) 7 3 SetupOutcome.success).streamOpen =
      some 7 ∧
    setupStream (cleanup (initState : HookState String Nat)) 7 3
        (SetupOutcome.failure Thrown.nonError) =
      cleanup (initState : HookState String Nat) :=
  ⟨(setup_failure_reconnect (initState : HookState String Nat) Thrown.nonError 7 3).1
      (by decide),
   (setup_failure_reconnect (initState : HookState String Nat) Thrown.nonError 7 3).2.2.1
      (by decide),
   (setup_failure_reconnect (cleanup (initState : HookState String Nat))
      Thrown.nonError 7 3).2.2.2.1 (by decide)⟩

/-- C6: the effect cleanup (the hook's stop) is a total function that
marks the state cleaned up, cancels any pending reconnect timer, closes
the handle slot, and drops the connected flag; it is idempotent, so a
second stop — or a stop before any handle was ever opened — changes
nothing and cannot throw.  The multi-stream cleanup additionally nulls
the published stream instance. -/
theorem stop_idempotent_total {K V : Type} (s : HookState K V) (ms : MHookState) :
    ((cleanup s).isCleanedUp = true ∧
     (cleanup s).reconnectTimeout = none ∧
     (cleanup s).streamOpen = none ∧
     (cleanup s).connected = false ∧
     cleanup (cleanup s) = cleanup s) ∧
    ((mCleanup ms).isCleanedUp = true ∧
     (mCleanup ms).reconnectTimeout = none ∧
     (mCleanup ms).streamOpen = none ∧
     (mCleanup ms).connected = false ∧
     (mCleanup ms).multiStream = none ∧
     mCleanup (mCleanup ms) = mCleanup ms) :=
  ⟨⟨rfl, rfl, rfl, rfl, rfl⟩, ⟨rfl, rfl, rfl, rfl, rfl, rfl⟩⟩

/-- C7: a status event carrying `"live"` sets `connected` true and
clears the loading flag; any other status value sets `connected` false
and leaves the loading flag (and everything else) unchanged — in both
hooks. -/
theorem status_event_transitions {K V : Type} (s : HookState K V) (ms : MHookState)
    (st : String) :
    onStreamState s "live" = { s with connected := true, loading := false } ∧
    (¬ st = "live" → onStreamState s st = { s with connected := false }) ∧
    mOnStreamState ms "live" = { ms with connected := true, loading := false } ∧
    (¬ st = "live" → mOnStreamState ms st = { ms with connected := false }) := by
  refine ⟨?_, ?_, ?_, ?_⟩
  · simp [onStreamState]
  · intro h; simp [onStreamState, h]
  · simp [mOnStreamState]
  · intro h; simp [mOnStreamState, h]

/-- C7, witness: the status value `"closed"` drops `connected` and
leaves loading alone, in both hooks. -/
theorem status_event_transitions_witness :
    onStreamState (initState : HookState String Nat) "closed" =
      { (initState : HookState String Nat) with connected := false } ∧
    mOnStreamState mInitState "closed" = { mInitState with connected := false } :=
  ⟨(status_event_transitions (initState : HookState String Nat) mInitState "closed").2.1
      (by decide),
   (status_event_transitions (initState : HookState String Nat) mInitState "closed").2.2.2
      (by decide)⟩

/-- C9: reading the ledger context outside the `DamlLedger` provider
(context value `null`) throws the misuse error synchronously at the
call site — the call evaluates directly to the thrown error, with no
retry state of any kind — while inside the provider the hook returns
the config and never throws this error. -/
theorem context_misuse_error :
    useDamlLedgerContext none =
      Except.error "useDamlLedgerContext must be used within a DamlLedger provider" ∧
    ∀ c : DamlLedgerConfig, useDamlLedgerContext (some c) = Except.ok c :=
  ⟨rfl, fun _ => rfl⟩

/-- C10: a setup failure on a not-yet-cleaned-up controller publishes
`loading = false`, `connected = false` and the error string
`"<name>: <message>"` for a thrown `Error` (the hook's fixed fallback
string otherwise), while the contracts view of the single hook — and
the published stream instance of the multi hook — are left unchanged. -/
theorem setup_failure_published_state {K V : Type} (s : HookState K V) (ms : MHookState)
    (t : Thrown) (nid tid : Nat) (n msg : String) :
    (s.isCleanedUp = false →
      (setupStream s nid tid (SetupOutcome.failure t)).loading = false ∧
      (setupStream s nid tid (SetupOutcome.failure t)).connected = false ∧
      (setupStream s nid tid (SetupOutcome.failure t)).error =
        some (ErrVal.str (thrownMessage singleSetupFallback t)) ∧
      (setupStream s nid tid (SetupOutcome.failure t)).contractsMap = s.contractsMap) ∧
    (ms.isCleanedUp = false →
      (mSetupStream ms nid tid (SetupOutcome.failure t)).loading = false ∧
      (mSetupStream ms nid tid (SetupOutcome.failure t)).connected = false ∧
      (mSetupStream ms nid tid (SetupOutcome.failure t)).error =
        some (ErrVal.str (thrownMessage multiSetupFallback t)) ∧
      (mSetupStream ms nid tid (SetupOutcome.failure t)).multiStream = ms.multiStream) ∧
    thrownMessage singleSetupFallback (Thrown.errObj n msg) = n ++ ": " ++ msg ∧
    thrownMessage singleSetupFallback Thrown.nonError = "Failed to setup stream" ∧
    thrownMessage multiSetupFallback Thrown.nonError = "Failed to setup multi-stream" := by
  refine ⟨?_, ?_, rfl, rfl, rfl⟩
  · intro h
    refine ⟨?_, ?_, ?_, ?_⟩ <;> simp [setupStream, setupBegin, setupResolve, h]
  · intro h
    refine ⟨?_, ?_, ?_, ?_⟩ <;> simp [mSetupStream, mSetupResolve, h]

/-- C10, witness: at mount, a thrown `TypeError` publishes the combined
name-and-message string and leaves the (empty) view as it was. -/
theorem setup_failure_published_state_witness :
    (setupStream (initState : HookState String Nat) 4 2
        (SetupOutcome.failure (Thrown.errObj "TypeError" "boom"))).error =
      some (ErrVal.str (thrownMessage singleSetupFallback
        (Thrown.errObj "TypeError" "boom"))) ∧
    (setupStream (initState : HookState String Nat) 4 2
        (SetupOutcome.failure (Thrown.errObj "TypeError" "boom"))).contractsMap = [] ∧
    (mSetupStream mInitState 4 2 (SetupOutcome.failure Thrown.nonError)).error =
      some (ErrVal.str (thrownMessage multiSetupFallback Thrown.nonError)) :=
  ⟨((setup_failure_published_state (initState : HookState String Nat) mInitState
      (Thrown.errObj "TypeError" "boom") 4 2 "n" "m").1 (by decide)).2.2.1,
   ((setup_failure_published_state (initState : HookState String Nat) mInitState
      (Thrown.errObj "TypeError" "boom") 4 2 "n" "m").1 (by decide)).2.2.2,
   ((setup_failure_published_state (initState : HookState String Nat) mInitState
      Thrown.nonError 4 2 "n" "m").2.1 (by decide)).2.2.1⟩

/-- C8, counterexample: on the trace that removes `"a"` and re-adds it,
the view's key order is `["b", "a"]`, not the order in which additions
first arrived (`["a", "b"]`) — a removed-and-re-added key moves to the
end. -/
theorem key_order_first_arrival_cex :
    mapKeys (foldView reAddTrace) = ["b", "a"] ∧
    firstAddOrder reAddTrace = ["a", "b"] ∧
    ¬ mapKeys (foldView reAddTrace) = firstAddOrder reAddTrace := by
  exact ⟨by decide, by decide, by decide⟩

/-- C8, amended: the view's keys appear in the order of their latest
insertion while absent: re-adding an already-present key leaves the key
sequence unchanged, adding an absent key appends it at the end,
removing a key filters it out without perturbing the order of the
remaining keys, and any view folded from an event sequence has no
duplicate keys. -/
theorem key_order_invariants {K V : Type} [DecidableEq K] (m : List (K × V)) (k : K)
    (v : V) (evs : List (ViewEvent K V)) :
    (mapHasKey m k = true → mapKeys (mapSet m k v) = mapKeys m) ∧
    (mapHasKey m k = false → mapKeys (mapSet m k v) = mapKeys m ++ [k]) ∧
    mapKeys (mapDelete m k) = (mapKeys m).filter (fun x => decide (¬ x = k)) ∧
    (mapKeys (foldView evs)).Nodup := by
  refine ⟨mapKeys_mapSet_present m k v, mapKeys_mapSet_absent m k v,
    mapKeys_mapDelete m k, ?_⟩
  exact nodup_mapKeys_foldl evs [] (by simp [mapKeys])

/-- C8, witness: re-setting the present key `"a"` keeps the key
sequence, setting the absent key `"b"` appends it. -/
theorem key_order_invariants_witness :
    mapKeys (mapSet [("a", (1 : Nat))] "a" 9) = mapKeys [("a", (1 : Nat))] ∧
    mapKeys (mapSet [("a", (1 : Nat))] "b" 9) = mapKeys [("a", (1 : Nat))] ++ ["b"] :=
  ⟨(key_order_invariants [("a", 1)] "a" 9 ([] : List (ViewEvent String Nat))).1
      (by decide),
   (key_order_invariants [("a", 1)] "b" 9 ([] : List (ViewEvent String Nat))).2.1
      (by decide)⟩

end C7React
